import Mathlib

/-!
Shallow embedding of the scip-unified instance generators:

* noise-dosage instance data, writer and reader
  (problem_instances/noise_dosage/generate.py),
* the randomized noise-dosage instance generator
  (problem_instances/noise_dosage/data_generator.py),
* the covering-design model builder and its batch driver
  (problem_instances/covering_designs/generate.py).

Real numbers are modelled as rationals, file contents as lists of token
lines, Python exceptions as an explicit error type threaded through
Except, and the pyscipopt model object as an explicit record of
variables, linear constraints and an objective.
-/

/-- A whitespace-separated token of a noise-dosage instance file: an
integer literal, a floating-point literal in scientific notation
(carrying its exact decimal value), or any other (non-numeric) token. -/
inductive Tok where
  | intTok (z : ℤ)
  | fltTok (q : ℚ)
  | rawTok (s : String)
deriving DecidableEq

/-- The Python exceptions that read_noise_dosage can raise: IndexError
from indexing a missing line, ValueError from int() / float() / tuple
unpacking, and AssertionError from the NoiseDosage constructor. -/
inductive ReadErr where
  | indexError
  | valueError (msg : String)
  | assertionError
deriving DecidableEq

/-- The fields of the NoiseDosage class of noise_dosage/generate.py. -/
structure NoiseDosage where
  name : String
  m : ℤ
  n : ℤ
  alpha : List ℚ
  d : List ℤ
  t : List ℚ
  total_hours : ℤ
deriving DecidableEq

/-- The length assertions that the NoiseDosage constructor enforces:
len(alpha) == m, len(d) == m and len(t) == m.  (The isinstance checks of
the Python constructor are static typing in this embedding.  Note that
the constructor checks nothing else: in particular line 40 of
generate.py evaluates isinstance(total_hours, int) without an assert.) -/
def WF (inst : NoiseDosage) : Prop :=
  (inst.alpha.length : ℤ) = inst.m ∧ (inst.d.length : ℤ) = inst.m ∧
    (inst.t.length : ℤ) = inst.m

instance (inst : NoiseDosage) : Decidable (WF inst) := by
  unfold WF; infer_instance

/-- NoiseDosage.__init__: succeeds (returns the instance) exactly when
the three length assertions hold; an assertion failure is None. -/
def mkNoiseDosage (name : String) (m n : ℤ) (alpha : List ℚ) (d : List ℤ)
    (t : List ℚ) (total_hours : ℤ) : Option NoiseDosage :=
  if (alpha.length : ℤ) = m ∧ (d.length : ℤ) = m ∧ (t.length : ℤ) = m then
    some ⟨name, m, n, alpha, d, t, total_hours⟩
  else
    none

/-- The value denoted by the scientific-notation literal that the Python
format spec `e` prints for x: the mantissa is x scaled into [1, 10) by a
power of ten and rounded to six decimal places.  Zero prints as zero. -/
def formatE (x : ℚ) : ℚ :=
  if x = 0 then 0
  else
    let a := |x|
    let e : ℤ := Int.log 10 a
    let mant : ℤ := round (a / (10 : ℚ) ^ e * 1000000)
    let y : ℚ := (mant : ℚ) / 1000000 * (10 : ℚ) ^ e
    if x < 0 then -y else y

/-- NoiseDosage.write: five lines of tokens, with alpha and t printed in
scientific notation (six decimal places) and the integer fields printed
exactly. -/
def writeND (inst : NoiseDosage) : List (List Tok) :=
  [ [Tok.intTok inst.m, Tok.intTok inst.n],
    inst.alpha.map (fun q => Tok.fltTok (formatE q)),
    inst.d.map Tok.intTok,
    inst.t.map (fun q => Tok.fltTok (formatE q)),
    [Tok.intTok inst.total_hours] ]

/-- lines[i]: IndexError when the file has at most i lines. -/
def getLine (ls : List (List Tok)) (i : ℕ) : Except ReadErr (List Tok) :=
  match ls.get? i with
  | some l => .ok l
  | none => .error .indexError

/-- Python int() on one token. -/
def parseIntTok : Tok → Except ReadErr ℤ
  | .intTok z => .ok z
  | .fltTok q =>
    .error (.valueError ("invalid literal for int with base 10: " ++ toString q))
  | .rawTok s =>
    .error (.valueError ("invalid literal for int with base 10: " ++ s))

/-- Python float() on one token. -/
def parseFloatTok : Tok → Except ReadErr ℚ
  | .intTok z => .ok (z : ℚ)
  | .fltTok q => .ok q
  | .rawTok s =>
    .error (.valueError ("could not convert string to float: " ++ s))

/-- list(map(int, toks)): left to right, first failure wins. -/
def parseInts : List Tok → Except ReadErr (List ℤ)
  | [] => .ok []
  | tok :: rest =>
    match parseIntTok tok with
    | .error e => .error e
    | .ok z =>
      match parseInts rest with
      | .error e => .error e
      | .ok zs => .ok (z :: zs)

/-- list(map(float, toks)): left to right, first failure wins. -/
def parseFloats : List Tok → Except ReadErr (List ℚ)
  | [] => .ok []
  | tok :: rest =>
    match parseFloatTok tok with
    | .error e => .error e
    | .ok q =>
      match parseFloats rest with
      | .error e => .error e
      | .ok qs => .ok (q :: qs)

/-- int(line.strip()) on a whole line: succeeds only when the line is a
single integer token. -/
def parseSingleInt : List Tok → Except ReadErr ℤ
  | [tok] => parseIntTok tok
  | [] => .error (.valueError "invalid literal for int with base 10: empty line")
  | _ => .error (.valueError "invalid literal for int with base 10: multiple tokens")

/-- Exception propagation: run the continuation on a success, propagate
the raised exception otherwise. -/
def estep {α β : Type} (x : Except ReadErr α) (f : α → Except ReadErr β) :
    Except ReadErr β :=
  match x with
  | .error e => .error e
  | .ok a => f a

/-- read_noise_dosage, over tokenized lines.  Mirrors the statement
order of the source: line 0 is unpacked into m and n (parsing each
token before the arity check, as the lazy map does), then lines 1-3 are
parsed as float, int, float lists, line 4 as a single integer, and the
NoiseDosage constructor runs last. -/
def readND (name : String) (ls : List (List Tok)) : Except ReadErr NoiseDosage :=
  estep (getLine ls 0) fun l0 =>
  estep (parseInts l0) fun mn =>
  match mn with
  | [m, n] =>
    estep (getLine ls 1) fun l1 =>
    estep (parseFloats l1) fun alpha =>
    estep (getLine ls 2) fun l2 =>
    estep (parseInts l2) fun d =>
    estep (getLine ls 3) fun l3 =>
    estep (parseFloats l3) fun t =>
    estep (getLine ls 4) fun l4 =>
    estep (parseSingleInt l4) fun th =>
    match mkNoiseDosage name m n alpha d t th with
    | some inst => .ok inst
    | none => .error .assertionError
  | _ => .error (.valueError "cannot unpack line 1 into exactly two values")

example : readND "w" [[Tok.intTok 1, Tok.intTok 1], [Tok.fltTok 1],
    [Tok.intTok 4], [Tok.fltTok 1], [Tok.intTok 8]]
    = .ok ⟨"w", 1, 1, [1], [4], [1], 8⟩ := rfl

/-! ## The pyscipopt model object, shallowly -/

/-- Variable kind: vtype I (integer) or C (continuous). -/
inductive VType where
  | integer
  | continuous
deriving DecidableEq

/-- A decision variable as created by model.addVar: name, kind, lower
bound, and optional upper bound (None meaning plus infinity). -/
structure MVar where
  vname : String
  vtype : VType
  lb : ℚ
  ub : Option ℚ
deriving DecidableEq

/-- A linear expression: a list of coefficient-variable terms plus a
constant. -/
structure LinExpr where
  terms : List (ℚ × String)
  const : ℚ
deriving DecidableEq

/-- Comparison sense of a linear constraint. -/
inductive CRel where
  | le
  | ge
  | eq
deriving DecidableEq

/-- A linear constraint as created by model.addCons, with its optional
name and the two sides as written in the source. -/
structure LinCons where
  cnm : Option String
  lhs : LinExpr
  rel : CRel
  rhs : LinExpr
deriving DecidableEq

inductive ObjSense where
  | minimize
  | maximize
deriving DecidableEq

/-- The pyscipopt Model: a problem name, the variables and constraints
in insertion order, and the objective set last. -/
structure MipModel where
  problemName : String
  vars : List MVar
  cons : List LinCons
  objective : Option (LinExpr × ObjSense)
deriving DecidableEq

/-- model.addVar: appends the variable and returns its handle (name). -/
def MipModel.addVar (mo : MipModel) (v : MVar) : MipModel × String :=
  ({ mo with vars := mo.vars ++ [v] }, v.vname)

/-- model.addCons: appends the constraint. -/
def MipModel.addCons (mo : MipModel) (c : LinCons) : MipModel :=
  { mo with cons := mo.cons ++ [c] }

/-- model.setObjective. -/
def MipModel.setObjective (mo : MipModel) (e : LinExpr) (s : ObjSense) : MipModel :=
  { mo with objective := some (e, s) }

/-! ## The noise-dosage model builder (generate_noise_dosage) -/

/-- inst.alpha[i] (in range under WF; reads as Python indexing there). -/
def alphaAt (inst : NoiseDosage) (i : ℕ) : ℚ := inst.alpha.getD i 0

/-- inst.d[i]. -/
def dAt (inst : NoiseDosage) (i : ℕ) : ℤ := inst.d.getD i 0

/-- inst.t[i]. -/
def tAt (inst : NoiseDosage) (i : ℕ) : ℚ := inst.t.getD i 0

/-- The name given to variable x[i,j]. -/
def xName (i j : ℕ) : String := s!"x[{i},{j}]"

/-- u[i] = min(inst.total_hours // inst.t[i], inst.d[i]), the derived
upper bound on the work cycles one worker can run on machine i. -/
def uBound (inst : NoiseDosage) (i : ℕ) : ℚ :=
  min ((⌊(inst.total_hours : ℚ) / tAt inst i⌋ : ℤ) : ℚ) ((dAt inst i : ℚ))

/-- M = max(u.values()) + 1, the positional weighting base of the
Sherali-Smith symmetry-handling constraints.  Python max raises on an
empty sequence (m = 0); that case is modelled by the junk initial value
uBound inst 0, which equals a member of the list whenever m is at least
one. -/
def Mbase (inst : NoiseDosage) : ℚ :=
  (((List.range inst.m.toNat).map (uBound inst)).foldr max (uBound inst 0)) + 1

/-- generate_noise_dosage: the model built from an instance, following
the statement order of the source: x variables (i outer, j inner), the
z variable, the n dosage constraints, the m demand constraints, the n
hour-budget constraints, optionally the n-1 lexicographic
symmetry-handling constraints, and finally the objective. -/
def generate_noise_dosage (inst : NoiseDosage) (withSym : Bool) : MipModel :=
  let m := inst.m.toNat
  let n := inst.n.toNat
  let mo : MipModel := { problemName := inst.name, vars := [], cons := [], objective := none }
  let mo := (List.range m).foldl (fun acc i =>
    (List.range n).foldl (fun acc2 j =>
      (acc2.addVar { vname := xName i j, vtype := .integer, lb := 0, ub := none }).1) acc) mo
  let mo := (mo.addVar { vname := "z", vtype := .continuous, lb := 0, ub := none }).1
  let mo := (List.range n).foldl (fun acc j => acc.addCons
    { cnm := none,
      lhs := { terms := [(1, "z")], const := 0 },
      rel := .ge,
      rhs := { terms := (List.range m).map (fun i => (alphaAt inst i, xName i j)),
               const := 0 } }) mo
  let mo := (List.range m).foldl (fun acc i => acc.addCons
    { cnm := none,
      lhs := { terms := (List.range n).map (fun j => (1, xName i j)), const := 0 },
      rel := .eq,
      rhs := { terms := [], const := (dAt inst i : ℚ) } }) mo
  let mo := (List.range n).foldl (fun acc j => acc.addCons
    { cnm := none,
      lhs := { terms := (List.range m).map (fun i => (tAt inst i, xName i j)), const := 0 },
      rel := .le,
      rhs := { terms := [], const := (inst.total_hours : ℚ) } }) mo
  let mo :=
    if withSym then
      (List.range (n - 1)).foldl (fun acc j => acc.addCons
        { cnm := none,
          lhs := { terms := (List.range m).map (fun i => (Mbase inst ^ i, xName i j)),
                   const := 0 },
          rel := .ge,
          rhs := { terms := (List.range m).map (fun i => (Mbase inst ^ i, xName i (j + 1))),
                   const := 0 } }) mo
    else mo
  mo.setObjective { terms := [(1, "z")], const := 0 } .minimize

/-- The model that section 4.4 of the specification describes, written
out directly: one non-negative integer variable per machine-worker pair
plus one non-negative continuous variable z; per worker a dosage bound
constraint, per machine a work-cycle distribution constraint, per
worker an hour-budget constraint; objective minimize z. -/
def noiseModelPerSpec (inst : NoiseDosage) : MipModel :=
  let m := inst.m.toNat
  let n := inst.n.toNat
  { problemName := inst.name,
    vars :=
      ((List.range m).flatMap (fun i => (List.range n).map (fun j =>
        { vname := xName i j, vtype := .integer, lb := 0, ub := none })))
      ++ [{ vname := "z", vtype := .continuous, lb := 0, ub := none }],
    cons :=
      ((List.range n).map (fun j =>
        { cnm := none,
          lhs := { terms := [(1, "z")], const := 0 },
          rel := .ge,
          rhs := { terms := (List.range m).map (fun i => (alphaAt inst i, xName i j)),
                   const := 0 } }))
      ++ ((List.range m).map (fun i =>
        { cnm := none,
          lhs := { terms := (List.range n).map (fun j => (1, xName i j)), const := 0 },
          rel := .eq,
          rhs := { terms := [], const := (dAt inst i : ℚ) } }))
      ++ ((List.range n).map (fun j =>
        { cnm := none,
          lhs := { terms := (List.range m).map (fun i => (tAt inst i, xName i j)), const := 0 },
          rel := .le,
          rhs := { terms := [], const := (inst.total_hours : ℚ) } })),
    objective := some ({ terms := [(1, "z")], const := 0 }, .minimize) }

/-! ## The covering-design model builder (covering_designs/generate.py) -/

/-- The while loop of is_sorted_subset: starting at the current scan
position, drop superset elements smaller than a.  Returns the remaining
suffix (whose head is the first element not below a), or none when the
scan runs off the end (the IndexError path of the source). -/
def scanFor {α : Type} [LinearOrder α] (a : α) : List α → Option (List α)
  | [] => none
  | b :: bs => if b < a then scanFor a bs else some (b :: bs)

/-- The for loop of is_sorted_subset over the remaining subset, carrying
the current superset suffix (the scan position i).  On a match the scan
position is kept, not advanced, exactly as in the source. -/
def sortedSubsetGo {α : Type} [LinearOrder α] : List α → List α → Bool
  | [], _ => true
  | a :: rest, sup =>
    match scanFor a sup with
    | none => false
    | some [] => false
    | some (b :: bs) => if b = a then sortedSubsetGo rest (b :: bs) else false

/-- is_sorted_subset of covering_designs/generate.py: a linear
merge-style scan over both ascending sequences; an IndexError (superset
exhausted) is caught and returns false. -/
def is_sorted_subset {α : Type} [LinearOrder α] (subset superset : List α) : Bool :=
  sortedSubsetGo subset superset

example : is_sorted_subset ([2, 4] : List ℤ) [1, 2, 3, 4, 5] = true := by decide
example : is_sorted_subset ([2, 6] : List ℤ) [1, 2, 3, 4, 5] = false := by decide
example : is_sorted_subset ([2, 2] : List ℤ) [1, 2, 3] = true := by decide

/-- The name of covering-design variable j (built from the entries of
the j-th k-subset). -/
def covVarName (j : ℕ) (entries : List ℕ) : String :=
  "x[" ++ toString j ++ ":" ++ String.intercalate "," (entries.map toString) ++ "]"

/-- The name of covering constraint i. -/
def covConsName (i : ℕ) (entries : List ℕ) : String :=
  "cov[" ++ toString i ++ ":" ++ String.intercalate "," (entries.map toString) ++ "]"

/-- generate_covering_design: enumerate all k-subsets and t-subsets of
range v, add one integer variable with bounds [0, lamb] per k-subset,
one covering constraint per t-subset summing the variables of the
k-subsets that contain it (by is_sorted_subset), and minimize the sum
of all variables. -/
def generate_covering_design (lamb v k t : ℕ) : MipModel :=
  let set_k := List.sublistsLen k (List.range v)
  let set_t := List.sublistsLen t (List.range v)
  let mo : MipModel :=
    { problemName := "cov_" ++ toString lamb ++ "(" ++ toString v ++ ","
        ++ toString k ++ "," ++ toString t ++ ")",
      vars := [], cons := [], objective := none }
  let mo := set_k.enum.foldl (fun acc p =>
    (acc.addVar { vname := covVarName p.1 p.2, vtype := .integer, lb := 0,
                  ub := some (lamb : ℚ) }).1) mo
  let mo := set_t.enum.foldl (fun acc p => acc.addCons
    { cnm := some (covConsName p.1 p.2),
      lhs := { terms := (set_k.enum.filter
                 (fun q => is_sorted_subset p.2 q.2)).map
                 (fun q => (1, covVarName q.1 q.2)),
               const := 0 },
      rel := .ge,
      rhs := { terms := [], const := (lamb : ℚ) } }) mo
  mo.setObjective
    { terms := set_k.enum.map (fun p => (1, covVarName p.1 p.2)), const := 0 }
    .minimize

/-- The batch driver of covering_designs/generate.py: it iterates over
lamb in 2..3 and v, k, t each in 1..12, and calls
generate_covering_design only on the tuples it does not skip.  A tuple
is skipped when its output file already exists (the exists argument
models the filesystem), when v <= k, or when k <= t, in that order.
This is the list of tuples the driver actually builds a model for. -/
def coveringMainCalls (outputExists : ℕ → ℕ → ℕ → ℕ → Bool) :
    List (ℕ × ℕ × ℕ × ℕ) :=
  (((List.range 2).map (fun i => i + 2)).flatMap (fun lamb =>
    (((List.range 12).map (fun i => i + 1)).flatMap (fun v =>
      (((List.range 12).map (fun i => i + 1)).flatMap (fun k =>
        ((List.range 12).map (fun i => i + 1)).map (fun t =>
          (lamb, v, k, t)))))))).filter
    (fun p =>
      match p with
      | (lamb, v, k, t) =>
        if outputExists lamb v k t then false
        else if v ≤ k then false
        else if k ≤ t then false
        else true)

/-! ## The randomized instance generator (data_generator.py)

The Python standard library random module is an external collaborator:
it is modelled as a stream of uniform deviates in [0, 1) together with a
position, and random.Random(seed) as an arbitrary seed-indexed family of
such streams.  The normal inverse cdf is likewise an arbitrary function
of mean, standard deviation and deviate.  The module-level (global)
random state is passed in explicitly so that independence from it is a
statement, not an accident of the embedding. -/

/-- A pseudo-random source: a stream of uniform deviates and the next
position to read. -/
structure RandState where
  stream : ℕ → ℚ
  pos : ℕ

/-- rgen.random(): one deviate, advancing the position. -/
def RandState.next (r : RandState) : ℚ × RandState :=
  (r.stream r.pos, ⟨r.stream, r.pos + 1⟩)

/-- Modelled external collaborator (random.Random.randint): one deviate
scaled to the inclusive integer range [a, b]. -/
def randintStep (a b : ℤ) (r : RandState) : ℤ × RandState :=
  let p := r.next
  (a + ⌊p.1 * ((b - a + 1 : ℤ) : ℚ)⌋, p.2)

/-- [rgen.randint(a, b) for j in range(cnt)], left to right. -/
def drawInts (a b : ℤ) : ℕ → RandState → List ℤ × RandState
  | 0, r => ([], r)
  | Nat.succ cnt, r =>
    let p := randintStep a b r
    let q := drawInts a b cnt p.2
    (p.1 :: q.1, q.2)

/-- The rejection loop of data_generator.py: draw f(rgen.random()) until
the value is non-negative.  The loop has no bound in the source; fuel
makes it structural, returning 0 when the fuel runs out. -/
def sampleNonneg (f : ℚ → ℚ) : ℕ → RandState → ℚ × RandState
  | 0, r => (0, r)
  | Nat.succ fuel, r =>
    let p := r.next
    if f p.1 < 0 then sampleNonneg f fuel p.2 else (f p.1, p.2)

/-- [get_random(...) for j in range(cnt)] with the rejection loop. -/
def drawNonnegs (f : ℚ → ℚ) (fuel : ℕ) : ℕ → RandState → List ℚ × RandState
  | 0, r => ([], r)
  | Nat.succ cnt, r =>
    let p := sampleNonneg f fuel r
    let q := drawNonnegs f fuel cnt p.2
    (p.1 :: q.1, q.2)

/-- generate_instance of data_generator.py.  globalRandom models the
module-level random state: the source never touches it, because it
builds its own random.Random(seed); seedToState models that
construction, and invCdf the NormalDist(mu, sigma).inv_cdf method. -/
def generate_instance (globalRandom : RandState) (seedToState : ℤ → RandState)
    (invCdf : ℚ → ℚ → ℚ → ℚ) (fuel : ℕ)
    (n_machines n_workers : ℕ) (worker_hours seed : ℤ) : NoiseDosage :=
  let _ := globalRandom
  let name := s!"noise{n_machines}_{n_workers}_{worker_hours}_s{seed}"
  let total_hours_available : ℚ := (n_workers : ℚ) * (worker_hours : ℚ)
  let aimed_total_hours := total_hours_available / 2
  let rgen := seedToState seed
  let pd := drawInts 4 10 n_machines rgen
  let d := pd.1
  let total_jobs : ℚ := ((d.sum : ℤ) : ℚ)
  let mean_job_duration := aimed_total_hours / total_jobs
  let stdev_job_duration := mean_job_duration * (2 / 10)
  let pt := drawNonnegs (invCdf mean_job_duration stdev_job_duration) fuel n_machines pd.2
  let t := pt.1
  let pa := drawNonnegs (invCdf 18 4) fuel n_machines pt.2
  let alpha := pa.1
  ⟨name, (n_machines : ℤ), (n_workers : ℤ), alpha, d, t, worker_hours⟩

/-! ## Helper lemmas about the model-building folds -/

theorem foldl_addCons {α : Type} (l : List α) (f : α → LinCons) (mo : MipModel) :
    l.foldl (fun acc a => acc.addCons (f a)) mo
      = { mo with cons := mo.cons ++ l.map f } := by
  induction l generalizing mo with
  | nil => simp
  | cons a l ih =>
    rw [List.foldl_cons, ih]
    simp [MipModel.addCons]

theorem foldl_addVar {α : Type} (l : List α) (f : α → MVar) (mo : MipModel) :
    l.foldl (fun acc a => (acc.addVar (f a)).1) mo
      = { mo with vars := mo.vars ++ l.map f } := by
  induction l generalizing mo with
  | nil => simp
  | cons a l ih =>
    rw [List.foldl_cons, ih]
    simp [MipModel.addVar]

theorem foldl_foldl_addVar {α β : Type} (la : List α) (lb : List β)
    (f : α → β → MVar) (mo : MipModel) :
    la.foldl (fun acc a =>
        lb.foldl (fun acc2 b => (acc2.addVar (f a b)).1) acc) mo
      = { mo with vars := mo.vars ++ la.flatMap (fun a => lb.map (f a)) } := by
  induction la generalizing mo with
  | nil => simp
  | cons a la ih =>
    rw [List.foldl_cons, foldl_addVar, ih]
    simp

theorem le_foldr_max {l : List ℚ} {a : ℚ} (init : ℚ) (h : a ∈ l) :
    a ≤ l.foldr max init := by
  induction l with
  | nil => exact absurd h (List.not_mem_nil a)
  | cons b bs ih =>
    rcases List.mem_cons.mp h with h1 | h2
    · exact h1 ▸ le_max_left _ _
    · exact le_trans (ih h2) (le_max_right _ _)

/-! ## Claim theorems -/

/-- Claim C4: generate_instance is deterministic in its arguments and in
particular independent of the module-level (global) random state: two
calls that differ only in that state produce the same instance, because
the random source is seeded explicitly from the seed argument. -/
theorem generator_ignores_global_state_c4 :
    ∀ (g1 g2 : RandState) (seedToState : ℤ → RandState)
      (invCdf : ℚ → ℚ → ℚ → ℚ) (fuel n_machines n_workers : ℕ)
      (worker_hours seed : ℤ),
      generate_instance g1 seedToState invCdf fuel n_machines n_workers
          worker_hours seed
        = generate_instance g2 seedToState invCdf fuel n_machines n_workers
          worker_hours seed :=
  fun _ _ _ _ _ _ _ _ _ => rfl

/-- Claim C5: the three sorted-subset examples, and the empty subset is
accepted against every superset; the second example exhausts the
superset while scanning for 6 and returns false instead of failing. -/
theorem is_sorted_subset_examples_c5 :
    is_sorted_subset ([2, 4] : List ℤ) [1, 2, 3, 4, 5] = true ∧
    is_sorted_subset ([2, 6] : List ℤ) [1, 2, 3, 4, 5] = false ∧
    ∀ xs : List ℤ, is_sorted_subset ([] : List ℤ) xs = true :=
  ⟨by decide, by decide, fun _ => rfl⟩

/-- Claim C10: the scan position is not advanced after a successful
match, so a subset with a repeated value is accepted although the value
occurs only once in the superset. -/
theorem repeated_subset_values_c10 :
    is_sorted_subset ([2, 2] : List ℤ) [1, 2, 3] = true := by decide

/-- Claim C7, counterexample: the constructor accepts an instance with a
negative dosage value, a negative duration value and total_hours = 0,
contradicting the claim that such constructions are rejected. -/
theorem constructor_counterexample_c7 :
    mkNoiseDosage "x" 1 1 [-1] [1] [-1] 0
      = some ⟨"x", 1, 1, [-1], [1], [-1], 0⟩ := by decide

/-- Claim C7, amended: the constructor enforces exactly the three length
invariants; it does not check non-negativity of alpha or t, nor
positivity of total_hours (its isinstance check lacks an assert in the
source). -/
theorem constructor_checks_only_lengths_c7 (name : String) (m n : ℤ)
    (alpha : List ℚ) (d : List ℤ) (t : List ℚ) (th : ℤ) :
    (mkNoiseDosage name m n alpha d t th).isSome = true
      ↔ ((alpha.length : ℤ) = m ∧ (d.length : ℤ) = m ∧ (t.length : ℤ) = m) := by
  unfold mkNoiseDosage
  split <;> simp_all

/-- Claim C9: the covering-design batch driver never calls
generate_covering_design on a parameter tuple violating v > k > t:
such tuples are filtered out (skipped) before model construction,
whatever the filesystem state. -/
theorem invalid_tuples_skipped_c9 (outputExists : ℕ → ℕ → ℕ → ℕ → Bool)
    (lamb v k t : ℕ) (h : ¬(k < v ∧ t < k)) :
    (lamb, v, k, t) ∉ coveringMainCalls outputExists := by
  intro hmem
  unfold coveringMainCalls at hmem
  rcases List.mem_filter.mp hmem with ⟨-, hp⟩
  by_cases h1 : outputExists lamb v k t = true
  · simp [h1] at hp
  · by_cases h2 : v ≤ k
    · simp [h1, h2] at hp
    · by_cases h3 : k ≤ t
      · simp [h1, h2, h3] at hp
      · exact h ⟨lt_of_not_le h2, lt_of_not_le h3⟩

/-- Witness for C9 at the concrete tuple (2, 3, 3, 1), which violates
v > k. -/
theorem invalid_tuples_skipped_c9_witness :
    ¬((3 : ℕ) < 3 ∧ 1 < 3) ∧
    (2, 3, 3, 1) ∉ coveringMainCalls (fun _ _ _ _ => false) :=
  ⟨by decide,
   invalid_tuples_skipped_c9 (fun _ _ _ _ => false) 2 3 3 1 (by decide)⟩

/-- Claim C2: without symmetry handling, generate_noise_dosage produces
exactly the model of the specification: one non-negative integer
variable per machine-worker pair plus the non-negative continuous
variable z (m * n + 1 variables in total), the n dosage-bound
constraints, the m work-cycle distribution constraints, the n
hour-budget constraints, and the objective minimize z. -/
theorem noise_model_matches_spec_c2 (inst : NoiseDosage) :
    generate_noise_dosage inst false = noiseModelPerSpec inst ∧
    (generate_noise_dosage inst false).vars.length
      = inst.m.toNat * inst.n.toNat + 1 := by
  have h : generate_noise_dosage inst false = noiseModelPerSpec inst := by
    simp only [generate_noise_dosage, noiseModelPerSpec]
    simp only [foldl_foldl_addVar, foldl_addCons]
    simp [MipModel.addVar, MipModel.setObjective]
  refine ⟨h, ?_⟩
  rw [h]
  unfold noiseModelPerSpec
  simp [List.length_flatMap, Function.comp_def, List.map_const',
    List.sum_replicate, smul_eq_mul]

/-- Claim C6: for parameters with v > k > t (t a natural number, hence
t >= 0), the covering-design model has exactly C(v, k) decision
variables and exactly C(v, t) covering constraints. -/
theorem covering_design_counts_c6 (lamb v k t : ℕ) (hvk : k < v) (hkt : t < k) :
    (generate_covering_design lamb v k t).vars.length = Nat.choose v k ∧
    (generate_covering_design lamb v k t).cons.length = Nat.choose v t := by
  simp only [generate_covering_design]
  simp only [foldl_addVar, foldl_addCons]
  simp [MipModel.setObjective, List.enum_length, List.length_sublistsLen]

/-- Witness for C6 at (lamb, v, k, t) = (2, 5, 3, 1). -/
theorem covering_design_counts_c6_witness :
    (3 : ℕ) < 5 ∧ (1 : ℕ) < 3 ∧
    ((generate_covering_design 2 5 3 1).vars.length = Nat.choose 5 3 ∧
     (generate_covering_design 2 5 3 1).cons.length = Nat.choose 5 1) :=
  ⟨by decide, by decide, covering_design_counts_c6 2 5 3 1 (by decide) (by decide)⟩

/-- Claim C3: when every duration t[i] is positive, the weighting base
M = max(u) + 1 used by the symmetry-handling mode is strictly greater
than every per-machine bound u[i] = min(total_hours // t[i], d[i]). -/
theorem sym_base_exceeds_bounds_c3 (inst : NoiseDosage)
    (ht : ∀ i < inst.m.toNat, 0 < tAt inst i) :
    ∀ i < inst.m.toNat, uBound inst i < Mbase inst := by
  intro i hi
  have hmem : uBound inst i ∈ (List.range inst.m.toNat).map (uBound inst) :=
    List.mem_map_of_mem _ (List.mem_range.mpr hi)
  have hle := le_foldr_max (uBound inst 0) hmem
  unfold Mbase
  linarith

/-- Witness for C3 on the instance with one machine, one worker,
alpha = [1], d = [2], t = [1] and total_hours = 8: there
u[0] = min(8, 2) = 2 and M = 3. -/
theorem sym_base_exceeds_bounds_c3_witness :
    (∀ i < (⟨"w", 1, 1, [1], [2], [1], 8⟩ : NoiseDosage).m.toNat,
      0 < tAt ⟨"w", 1, 1, [1], [2], [1], 8⟩ i) ∧
    uBound ⟨"w", 1, 1, [1], [2], [1], 8⟩ 0 < Mbase ⟨"w", 1, 1, [1], [2], [1], 8⟩ :=
  ⟨by decide,
   sym_base_exceeds_bounds_c3 ⟨"w", 1, 1, [1], [2], [1], 8⟩ (by decide) 0 (by decide)⟩

/-! ## The formatting error bound and the round trip -/

theorem formatE_close (x : ℚ) : |formatE x - x| ≤ |x| / 2000000 := by
  unfold formatE
  by_cases hx : x = 0
  · simp [hx]
  · rw [if_neg hx]
    set a : ℚ := |x| with hadef
    have ha0 : 0 < a := abs_pos.mpr hx
    have hp : (0 : ℚ) < (10 : ℚ) ^ Int.log 10 a := zpow_pos (by norm_num) _
    have hpa : (10 : ℚ) ^ Int.log 10 a ≤ a :=
      Int.zpow_log_le_self (by norm_num) ha0
    set p : ℚ := (10 : ℚ) ^ Int.log 10 a with hpdef
    set mant : ℤ := round (a / p * 1000000) with hmdef
    have hr : |(mant : ℚ) - a / p * 1000000| ≤ 1 / 2 := by
      rw [abs_sub_comm]
      exact abs_sub_round _
    have key : |(mant : ℚ) / 1000000 * p - a| ≤ a / 2000000 := by
      have h1 : (mant : ℚ) / 1000000 * p - a
          = ((mant : ℚ) - a / p * 1000000) * (p / 1000000) := by
        field_simp
        ring
      rw [h1, abs_mul, abs_of_pos (show (0 : ℚ) < p / 1000000 by positivity)]
      calc |(mant : ℚ) - a / p * 1000000| * (p / 1000000)
          ≤ (1 / 2) * (p / 1000000) := by
            exact mul_le_mul_of_nonneg_right hr (by positivity)
        _ ≤ (1 / 2) * (a / 1000000) := by
            have := (div_le_div_iff_of_pos_right (show (0 : ℚ) < 1000000 by norm_num)).mpr hpa
            nlinarith
        _ = a / 2000000 := by ring
    by_cases hneg : x < 0
    · rw [if_pos hneg]
      have hax : a = -x := abs_of_neg hneg
      have h2 : -((mant : ℚ) / 1000000 * p) - x
          = -((mant : ℚ) / 1000000 * p - a) := by
        rw [hax]; ring
      rw [h2, abs_neg]
      exact key
    · rw [if_neg hneg]
      have hax : a = x := abs_of_nonneg (not_lt.mp hneg)
      calc |(mant : ℚ) / 1000000 * p - x|
          = |(mant : ℚ) / 1000000 * p - a| := by rw [hax]
        _ ≤ a / 2000000 := key

theorem parseInts_intToks (l : List ℤ) :
    parseInts (l.map Tok.intTok) = .ok l := by
  induction l with
  | nil => rfl
  | cons z l ih => simp [parseInts, parseIntTok, ih]

theorem parseFloats_fltToks (l : List ℚ) :
    parseFloats (l.map (fun q => Tok.fltTok q)) = .ok l := by
  induction l with
  | nil => rfl
  | cons q l ih => simp [parseFloats, parseFloatTok, ih]

/-- Claim C1: writing an instance and reading the file back reproduces
m, n, d and total_hours exactly, reproduces alpha and t up to the
six-decimal-place scientific formatting, and that formatting keeps
every element within relative error 1e-6 (each nonzero element moves by
strictly less than |value| / 1000000, and zero elements are exact). -/
theorem write_read_roundtrip_c1 (inst : NoiseDosage) (h : WF inst) :
    readND inst.name (writeND inst)
      = .ok { inst with alpha := inst.alpha.map formatE,
                        t := inst.t.map formatE } ∧
    (∀ a ∈ inst.alpha, |formatE a - a| < |a| / 1000000 ∨ formatE a = a) ∧
    (∀ b ∈ inst.t, |formatE b - b| < |b| / 1000000 ∨ formatE b = b) := by
  obtain ⟨h1, h2, h3⟩ := h
  refine ⟨?_, ?_, ?_⟩
  · have hmapa : inst.alpha.map (fun q => Tok.fltTok (formatE q))
        = (inst.alpha.map formatE).map (fun q => Tok.fltTok q) := by
      simp [List.map_map]
    have hmapt : inst.t.map (fun q => Tok.fltTok (formatE q))
        = (inst.t.map formatE).map (fun q => Tok.fltTok q) := by
      simp [List.map_map]
    unfold readND writeND
    simp only [getLine, List.get?, hmapa, hmapt, estep,
      parseInts_intToks, parseFloats_fltToks, parseInts, parseIntTok,
      parseSingleInt]
    simp [mkNoiseDosage, h1, h2, h3]
  · intro a _
    by_cases ha : a = 0
    · right
      simp [formatE, ha]
    · left
      refine lt_of_le_of_lt (formatE_close a) ?_
      exact div_lt_div_of_pos_left (abs_pos.mpr ha) (by norm_num) (by norm_num)
  · intro b _
    by_cases hb : b = 0
    · right
      simp [formatE, hb]
    · left
      refine lt_of_le_of_lt (formatE_close b) ?_
      exact div_lt_div_of_pos_left (abs_pos.mpr hb) (by norm_num) (by norm_num)

/-- Witness for C1 on a concrete well-formed instance. -/
theorem write_read_roundtrip_c1_witness :
    WF ⟨"nd", 1, 1, [3/2], [4], [5/4], 8⟩ ∧
    (readND "nd" (writeND ⟨"nd", 1, 1, [3/2], [4], [5/4], 8⟩)
        = .ok { (⟨"nd", 1, 1, [3/2], [4], [5/4], 8⟩ : NoiseDosage) with
                  alpha := [(3/2 : ℚ)].map formatE,
                  t := [(5/4 : ℚ)].map formatE } ∧
      (∀ a ∈ [(3/2 : ℚ)], |formatE a - a| < |a| / 1000000 ∨ formatE a = a) ∧
      (∀ b ∈ [(5/4 : ℚ)], |formatE b - b| < |b| / 1000000 ∨ formatE b = b)) :=
  ⟨by decide, write_read_roundtrip_c1 ⟨"nd", 1, 1, [3/2], [4], [5/4], 8⟩ (by decide)⟩

/-! ## Failure behaviour of the reader (claim C8) -/

theorem estep_ok {α β : Type} {x : Except ReadErr α} {f : α → Except ReadErr β}
    {v : β} (h : estep x f = .ok v) : ∃ a, x = .ok a ∧ f a = .ok v := by
  cases x with
  | error e => simp [estep] at h
  | ok a => exact ⟨a, rfl, h⟩

theorem getLine_ok {ls : List (List Tok)} {i : ℕ} {l : List Tok}
    (h : getLine ls i = .ok l) : ls.get? i = some l := by
  unfold getLine at h
  cases hg : ls.get? i with
  | none => rw [hg] at h; simp at h
  | some l2 => rw [hg] at h; simp_all

/-- Claim C8, amended: the reader succeeds only on fully well-formed
files - all five lines present, line 0 exactly two integer tokens,
lines 1 and 3 all floats, line 2 all integers, line 4 one integer, and
the three length invariants satisfied.  Contrapositively, every
malformed file (wrong field counts or non-numeric tokens) makes the
reader fail fast with an exception rather than succeed. -/
theorem read_ok_implies_wellformed_c8 (name : String) (ls : List (List Tok))
    (inst : NoiseDosage) (h : readND name ls = .ok inst) :
    ∃ l0 l1 l2 l3 l4,
      ls.get? 0 = some l0 ∧ ls.get? 1 = some l1 ∧ ls.get? 2 = some l2 ∧
      ls.get? 3 = some l3 ∧ ls.get? 4 = some l4 ∧
      parseInts l0 = .ok [inst.m, inst.n] ∧
      parseFloats l1 = .ok inst.alpha ∧
      parseInts l2 = .ok inst.d ∧
      parseFloats l3 = .ok inst.t ∧
      parseSingleInt l4 = .ok inst.total_hours ∧
      (inst.alpha.length : ℤ) = inst.m ∧ (inst.d.length : ℤ) = inst.m ∧
      (inst.t.length : ℤ) = inst.m := by
  unfold readND at h
  obtain ⟨l0, hg0, h⟩ := estep_ok h
  obtain ⟨mn, hp0, h⟩ := estep_ok h
  cases mn with
  | nil => simp at h
  | cons m mnrest =>
  cases mnrest with
  | nil => simp at h
  | cons n mnrest2 =>
  cases mnrest2 with
  | cons c cs => simp at h
  | nil =>
  obtain ⟨l1, hg1, h⟩ := estep_ok h
  obtain ⟨alpha, hp1, h⟩ := estep_ok h
  obtain ⟨l2, hg2, h⟩ := estep_ok h
  obtain ⟨d, hp2, h⟩ := estep_ok h
  obtain ⟨l3, hg3, h⟩ := estep_ok h
  obtain ⟨t, hp3, h⟩ := estep_ok h
  obtain ⟨l4, hg4, h⟩ := estep_ok h
  obtain ⟨th, hp4, h⟩ := estep_ok h
  unfold mkNoiseDosage at h
  by_cases hc : (alpha.length : ℤ) = m ∧ (d.length : ℤ) = m ∧ (t.length : ℤ) = m
  · rw [if_pos hc] at h
    simp only at h
    have hinst : (⟨name, m, n, alpha, d, t, th⟩ : NoiseDosage) = inst := by
      cases h
      rfl
    subst hinst
    exact ⟨l0, l1, l2, l3, l4, getLine_ok hg0, getLine_ok hg1, getLine_ok hg2,
      getLine_ok hg3, getLine_ok hg4, hp0, hp1, hp2, hp3, hp4,
      hc.1, hc.2.1, hc.2.2⟩
  · rw [if_neg hc] at h
    simp at h

/-- Witness for C8 on a concrete well-formed file. -/
theorem read_ok_implies_wellformed_c8_witness :
    ∃ l0 l1 l2 l3 l4,
      ([[Tok.intTok 1, Tok.intTok 1], [Tok.fltTok 1], [Tok.intTok 4],
        [Tok.fltTok 1], [Tok.intTok 8]] : List (List Tok)).get? 0 = some l0 ∧
      ([[Tok.intTok 1, Tok.intTok 1], [Tok.fltTok 1], [Tok.intTok 4],
        [Tok.fltTok 1], [Tok.intTok 8]] : List (List Tok)).get? 1 = some l1 ∧
      ([[Tok.intTok 1, Tok.intTok 1], [Tok.fltTok 1], [Tok.intTok 4],
        [Tok.fltTok 1], [Tok.intTok 8]] : List (List Tok)).get? 2 = some l2 ∧
      ([[Tok.intTok 1, Tok.intTok 1], [Tok.fltTok 1], [Tok.intTok 4],
        [Tok.fltTok 1], [Tok.intTok 8]] : List (List Tok)).get? 3 = some l3 ∧
      ([[Tok.intTok 1, Tok.intTok 1], [Tok.fltTok 1], [Tok.intTok 4],
        [Tok.fltTok 1], [Tok.intTok 8]] : List (List Tok)).get? 4 = some l4 ∧
      parseInts l0 = .ok [1, 1] ∧
      parseFloats l1 = .ok [1] ∧
      parseInts l2 = .ok [4] ∧
      parseFloats l3 = .ok [1] ∧
      parseSingleInt l4 = .ok 8 ∧
      (((1 : ℚ) :: []).length : ℤ) = 1 ∧ (((4 : ℤ) :: []).length : ℤ) = 1 ∧
      (((1 : ℚ) :: []).length : ℤ) = 1 :=
  read_ok_implies_wellformed_c8 "w"
    [[Tok.intTok 1, Tok.intTok 1], [Tok.fltTok 1], [Tok.intTok 4],
     [Tok.fltTok 1], [Tok.intTok 8]]
    ⟨"w", 1, 1, [1], [4], [1], 8⟩ rfl

/-- Claim C8, counterexample to the original claim: two files malformed
at different lines (a non-numeric token in line 1 versus line 3 of the
format) raise exactly the same exception value, so the parse error does
not identify the offending line. -/
theorem read_error_no_line_info_c8 :
    readND "f" [[Tok.rawTok "x"]]
      = readND "f" [[Tok.intTok 1, Tok.intTok 1], [Tok.fltTok 1], [Tok.rawTok "x"]]
    ∧ readND "f" [[Tok.rawTok "x"]]
      = .error (.valueError ("invalid literal for int with base 10: " ++ "x")) :=
  ⟨rfl, rfl⟩
